import Mathlib

/-!
Verification of the remote inference engine
(`src/oumi/inference/remote_inference_engine.py`).

The Python module translates conversations to OpenAI-style chat-completion
request bodies, dispatches them with retry, and manages batch jobs
(create, status, result remapping).  This file is a shallow embedding of
the pure request/response translation logic and of the control flow of
`_query_api` and `_get_batch_results_with_mapping`, with the HTTP layer
modelled as explicit function parameters (a stub transport / remote
service), and theorems settling the specification claims about them.
-/

namespace Oumi

/-- Wire values exchanged with the remote service.  This models the Python
values the module builds out of dict/list/str/int literals.  The extra
`pyset` constructor models a Python set literal: `_get_content_for_message`
builds one (`{message.content or ""}`) on its image-URL branch, and a set
is a distinct Python value from a dict, so the model must distinguish it. -/
inductive Json where
  | str (s : String)
  | num (n : Int)
  | bool (b : Bool)
  | null
  | arr (elems : List Json)
  | obj (entries : List (String × Json))
  | pyset (elems : List Json)
  deriving Repr

/-- Key lookup in a dict's entry list: first entry with the given key. -/
def lookupEntries : List (String × Json) → String → Option Json
  | [], _ => none
  | (k, v) :: rest, key => if k = key then some v else lookupEntries rest key

/-- Python `d.get(key)` / `d[key]` lookup on a dict value: first entry with
the given key, `none` when the key is absent.  (Lookup on a non-dict value
is modelled as absent; the Python code never relies on that case.) -/
def jsonGet (j : Json) (key : String) : Option Json :=
  match j with
  | Json.obj entries => lookupEntries entries key
  | _ => none

/-- Python truthiness of a wire value (`if result.get("error"):`). -/
def jsonTruthy : Json → Bool
  | Json.null => false
  | Json.bool b => b
  | Json.num n => decide (n ≠ 0)
  | Json.str s => decide (s ≠ "")
  | Json.arr xs => !xs.isEmpty
  | Json.obj kvs => !kvs.isEmpty
  | Json.pyset xs => !xs.isEmpty

/-- Python truthiness of an `Optional[str]` (`if status.error_file_id:`):
`None` and the empty string are falsy. -/
def optStrTruthy : Option String → Bool
  | none => false
  | some s => decide (s ≠ "")

/-- An `Optional[str]` serialized as a wire value (`None` becomes null). -/
def optStrToJson : Option String → Json
  | none => Json.null
  | some s => Json.str s

/-- Message roles.  Modelled from the spec: a message "has a role
(system/user/assistant)" (`Role` lives in `oumi.core.types.conversation`,
which is outside the sources under verification). -/
inductive Role where
  | system
  | user
  | assistant
  deriving DecidableEq, Repr

/-- The role's wire string (`role.value`). -/
def Role.value : Role → String
  | Role.system => "system"
  | Role.user => "user"
  | Role.assistant => "assistant"

/-- `Role(<string>)`: Python enum lookup by value; unknown strings raise. -/
def roleOfString (s : String) : Option Role :=
  if s = "system" then some Role.system
  else if s = "user" then some Role.user
  else if s = "assistant" then some Role.assistant
  else none

/-- Message content types.  Modelled from the spec: "a content type (text,
image-by-bytes, image-by-url)" plus `other`, standing for any unsupported
content type (the spec makes unsupported types a hard error, so the model
needs a representative for them). -/
inductive ContentType where
  | text
  | imageBinary
  | imageUrl
  | other
  deriving DecidableEq, Repr

/-- The content type's wire string (`Type.TEXT.value` etc.). -/
def ContentType.value : ContentType → String
  | ContentType.text => "text"
  | ContentType.imageBinary => "image_binary"
  | ContentType.imageUrl => "image_url"
  | ContentType.other => "other"

/-- A conversation message.  Modelled from the spec: role, content type,
text content, and an optional raw binary payload (image bytes). -/
structure Message where
  role : Role
  type : ContentType
  content : Option String
  binary : Option (List Nat)
  deriving DecidableEq, Repr

/-- `message.is_text()`. -/
def Message.isText (m : Message) : Bool := m.type = ContentType.text

/-- `message.is_image()`: the message's content type is one of the image
types. -/
def Message.isImage (m : Message) : Bool :=
  m.type = ContentType.imageBinary ∨ m.type = ContentType.imageUrl

/-- A conversation.  Modelled from the spec: an ordered sequence of
messages plus opaque metadata and an identifier. -/
structure Conversation where
  messages : List Message
  metadata : List (String × String)
  conversation_id : Option String
  deriving DecidableEq, Repr

/-- Modelled from the spec: the external collaborators the encoder calls
into, none of which are under the verified sources — `json.loads` from the
Python standard library (partial: invalid documents raise), and the
image-loading collaborator `oumi.utils.image_utils`
(`load_image_bytes_to_message`, `base64encode_image_bytes`). -/
structure Ext where
  jsonLoads : String → Option Json
  loadImageBytesToMessage : Message → Message
  base64encodeImageBytes : Message → String

/-- Tail of `_get_content_for_message` after the optional
`load_image_bytes_to_message` step: a binary payload is base64 encoded
into a data URI under a `url` key; otherwise the message must be an
image-URL message (the source asserts this) and the code builds
`{message.content or ""}` — a Python set literal — as the value under the
image-url key. -/
def contentForLoadedImage (ext : Ext) (m : Message) : Except String Json :=
  if m.binary ≠ none then
    Except.ok (Json.obj [("type", Json.str "image_url"),
                         ("image_url",
                          Json.obj [("url", Json.str (ext.base64encodeImageBytes m))])])
  else if m.type = ContentType.imageUrl then
    Except.ok (Json.obj [("type", Json.str "image_url"),
                         ("image_url", Json.pyset [Json.str (m.content.getD "")])])
  else
    Except.error "AssertionError: unexpected message type"

/-- `RemoteInferenceEngine._get_content_for_message`: the content unit for
one message.  Text yields a text unit; non-image non-text types raise;
otherwise image bytes are loaded when absent (unless the message is an
image-URL message) and the loaded message is encoded. -/
def getContentForMessage (ext : Ext) (message : Message) : Except String Json :=
  if message.type = ContentType.text then
    Except.ok (Json.obj [("type", Json.str "text"),
                         ("text", Json.str (message.content.getD ""))])
  else if ¬ message.isImage then
    Except.error ("Unsupported message type: " ++ message.type.value)
  else
    contentForLoadedImage ext
      (if message.binary = none ∧ message.type ≠ ContentType.imageUrl
       then ext.loadImageBytesToMessage message else message)

/-- Sequencing of the Python loops that build lists while any iteration
may raise: apply `f` to every element left to right, stopping at the first
raise. -/
def exceptMapM (f : α → Except String β) : List α → Except String (List β)
  | [] => Except.ok []
  | a :: as => do
    let b ← f a
    let bs ← exceptMapM f as
    Except.ok (b :: bs)

/-- The wire turn the grouping loop emits for one maximal run of messages
(`item` in the source): if the run is a single plain-text message its
content is the bare content value, otherwise the content is the list of
the run's content units. -/
def groupItem (ext : Ext) (run : List Message) (head : Message) :
    Except String Json :=
  if run.length = 1 ∧ head.isText then
    Except.ok (Json.obj [("role", Json.str head.role.value),
                         ("content", optStrToJson head.content)])
  else
    (exceptMapM (getContentForMessage ext) run).map
      (fun units => Json.obj [("role", Json.str head.role.value),
                              ("content", Json.arr units)])

/-- The while loop of `_get_list_of_message_json_dicts`, written with
explicit fuel so that it is structural (each iteration consumes at least
one message, so fuel `messages.length` is always enough; the fuel-zero
case is unreachable from the wrapper below). -/
def messageJsonDictsLoop (ext : Ext) (group : Bool) :
    Nat → List Message → Except String (List Json)
  | _, [] => Except.ok []
  | 0, _ :: _ => Except.ok []
  | fuel + 1, m :: rest =>
    let runRest := if group then rest.takeWhile (fun x => x.role = m.role) else []
    let remaining := if group then rest.dropWhile (fun x => x.role = m.role) else rest
    do
      let item ← groupItem ext (m :: runRest) m
      let tail ← messageJsonDictsLoop ext group fuel remaining
      Except.ok (item :: tail)

/-- `RemoteInferenceEngine._get_list_of_message_json_dicts`: encode a
message list into wire turns; with `group_adjacent_same_role_turns` set,
each maximal run of adjacent same-role messages becomes one turn. -/
def getListOfMessageJsonDicts (ext : Ext)
    (group_adjacent_same_role_turns : Bool) (messages : List Message) :
    Except String (List Json) :=
  messageJsonDictsLoop ext group_adjacent_same_role_turns messages.length messages

/-- Modelled from the spec: the structured-output schema carried by
generation settings is "either a schema object [a pydantic model class,
whose declared name and exported JSON schema the code reads off], a raw
JSON-schema document [a dict], or a JSON-schema string"; `other` stands
for a value of any other type (e.g. a number). -/
inductive JsonSchemaInput where
  | pydantic (name : String) (schema : Json)
  | dict (entries : List (String × Json))
  | str (s : String)
  | other

/-- Modelled from the spec / `oumi.core.configs` (outside the verified
sources): guided-decoding settings, whose only supported member is the
optional JSON schema. -/
structure GuidedDecodingParams where
  json : Option JsonSchemaInput

/-- Modelled from the spec / `oumi.core.configs` (outside the verified
sources): sampling and decoding controls.  The purely numeric knobs are
carried opaquely as wire values — the engine only copies them into the
request body. -/
structure GenerationParams where
  max_new_tokens : Json
  temperature : Json
  top_p : Json
  frequency_penalty : Json
  presence_penalty : Json
  seed : Json
  logit_bias : Json
  stop_strings : Option (List String)
  guided_decoding : Option GuidedDecodingParams

/-- The structured-output resolution branch of
`_convert_conversation_to_api_input`: a pydantic class contributes its
declared name and exported schema; a dict contributes the generic name
"Response" and itself; a string contributes the generic name and its
parse (`json.loads`, which raises on invalid input); anything else
raises. -/
def resolveJsonSchema (ext : Ext) : JsonSchemaInput → Except String (String × Json)
  | JsonSchemaInput.pydantic name schema => Except.ok (name, schema)
  | JsonSchemaInput.dict entries => Except.ok ("Response", Json.obj entries)
  | JsonSchemaInput.str s =>
    match ext.jsonLoads s with
    | some v => Except.ok ("Response", v)
    | none => Except.error "json.JSONDecodeError"
  | JsonSchemaInput.other => Except.error "Got unsupported JSON schema type"

/-- The `response_format` value built from a resolved schema name and
value. -/
def responseFormatJson (name : String) (value : Json) : Json :=
  Json.obj [("type", Json.str "json_schema"),
            ("json_schema", Json.obj [("name", Json.str name),
                                      ("schema", value)])]

/-- `RemoteInferenceEngine._convert_conversation_to_api_input`: the
request body for one conversation.  Every message becomes its own wire
turn whose content is the one-element list of its content unit (no
grouping on this path); the sampling knobs are copied in; `stop` is
included only for a non-empty stop list; and a guided-decoding setting
appends `response_format` (raising when its schema is missing or of an
unsupported type). -/
def encodeTurnsUngrouped (ext : Ext) (messages : List Message) :
    Except String (List Json) :=
  exceptMapM
    (fun m =>
      match getContentForMessage ext m with
      | Except.error e => Except.error e
      | Except.ok unit =>
        Except.ok (Json.obj [("content", Json.arr [unit]),
                             ("role", Json.str m.role.value)]))
    messages

/-- The sampling fields of the request body, in the dict insertion order
of the source, including the conditional `stop` field. -/
def apiInputFields (model : String) (g : GenerationParams) (msgs : List Json) :
    List (String × Json) :=
  let base : List (String × Json) :=
    [("model", Json.str model),
     ("messages", Json.arr msgs),
     ("max_completion_tokens", g.max_new_tokens),
     ("temperature", g.temperature),
     ("top_p", g.top_p),
     ("frequency_penalty", g.frequency_penalty),
     ("presence_penalty", g.presence_penalty),
     ("n", Json.num 1),
     ("seed", g.seed),
     ("logit_bias", g.logit_bias)]
  match g.stop_strings with
  | some (s :: ss) => base ++ [("stop", Json.arr ((s :: ss).map Json.str))]
  | _ => base

def convertConversationToApiInput (ext : Ext) (model : String)
    (g : GenerationParams) (conversation : Conversation) :
    Except String Json :=
  match encodeTurnsUngrouped ext conversation.messages with
  | Except.error e => Except.error e
  | Except.ok msgs =>
    match g.guided_decoding with
    | none => Except.ok (Json.obj (apiInputFields model g msgs))
    | some gd =>
      match gd.json with
      | some js =>
        match resolveJsonSchema ext js with
        | Except.error e => Except.error e
        | Except.ok nv =>
          Except.ok (Json.obj (apiInputFields model g msgs ++
            [("response_format", responseFormatJson nv.1 nv.2)]))
      | none => Except.error "Only JSON schema guided decoding is supported"

/-- The `content` field of a completion message coerced to the appended
message's `Optional[str]` content (the message model accepts a string or
null; any other value fails validation). -/
def contentAsOptStr : Json → Option (Option String)
  | Json.str s => some (some s)
  | Json.null => some none
  | _ => none

/-- `RemoteInferenceEngine._convert_api_output_to_conversation`: read the
first completion's message out of `response["choices"][0]["message"]` and
append it to a copy of the original conversation as a text message,
keeping the original metadata and identifier.  A response without a first
completion, an unknown role string, or a non-string content are decode
errors. -/
def convertApiOutputToConversation (response : Json)
    (original_conversation : Conversation) : Except String Conversation :=
  match jsonGet response "choices" with
  | some (Json.arr (choice0 :: _)) =>
    match jsonGet choice0 "message" with
    | some messageJson =>
      match jsonGet messageJson "content", jsonGet messageJson "role" with
      | some contentJson, some (Json.str roleStr) =>
        match contentAsOptStr contentJson, roleOfString roleStr with
        | some content, some role =>
          Except.ok
            { messages := original_conversation.messages ++
                [{ role := role, type := ContentType.text,
                   content := content, binary := none }],
              metadata := original_conversation.metadata,
              conversation_id := original_conversation.conversation_id }
        | _, _ => Except.error "invalid role or content in completion message"
      | _, _ => Except.error "KeyError"
    | none => Except.error "KeyError: message"
  | some (Json.arr []) => Except.error "IndexError: choices is empty"
  | _ => Except.error "KeyError: choices"

/-- Observable outcome of `_query_api`'s retry loop for one conversation:
how many HTTP attempts were made, how many politeness sleeps were
performed, and the final result (a decoded conversation or the raised
error). -/
structure QueryOutcome where
  attempts : Nat
  sleeps : Nat
  result : Except String Conversation
  deriving Repr

/-- The `for _ in range(max_retries + 1)` loop of `_query_api`, run
against a stub transport mapping the attempt number to the HTTP status
and response body of that attempt.  A 200 response is decoded and, when
decoding succeeds, followed by one politeness sleep before returning; a
non-200 response is followed by one politeness sleep and another
iteration; when the iterations run out the loop raises the
retries-exhausted error. -/
def queryApiLoop (transport : Nat → Nat × Json) (conversation : Conversation)
    (max_retries : Nat) : Nat → Nat → Nat → QueryOutcome
  | 0, attempts, sleeps =>
    { attempts := attempts, sleeps := sleeps,
      result := Except.error
        ("Failed to query API after " ++ toString max_retries ++ " retries.") }
  | fuel + 1, attempts, sleeps =>
    let response := transport attempts
    if response.1 = 200 then
      match convertApiOutputToConversation response.2 conversation with
      | Except.ok c =>
        { attempts := attempts + 1, sleeps := sleeps + 1, result := Except.ok c }
      | Except.error e =>
        { attempts := attempts + 1, sleeps := sleeps, result := Except.error e }
    else
      queryApiLoop transport conversation max_retries fuel (attempts + 1) (sleeps + 1)

/-- `RemoteInferenceEngine._query_api` for one conversation (the
admission gate and the request encoding wrap this loop and are out of
scope of the loop's claims): run up to `max_retries + 1` attempts. -/
def queryApi (transport : Nat → Nat × Json) (conversation : Conversation)
    (max_retries : Nat) : QueryOutcome :=
  queryApiLoop transport conversation max_retries (max_retries + 1) 0 0

/-- The request object `_create_batch` builds for the conversation at
position `i` with encoded body `body`. -/
def batchRequestObj (i : Nat) (body : Json) : Json :=
  Json.obj [("custom_id", Json.str ("request-" ++ toString i)),
            ("method", Json.str "POST"),
            ("url", Json.str "/v1/chat/completions"),
            ("body", body)]

/-- The request-building loop of `_create_batch`
(`for i, conv in enumerate(conversations)`), carrying the running index. -/
def createBatchRequestsFrom (ext : Ext) (model : String) (g : GenerationParams) :
    Nat → List Conversation → Except String (List Json)
  | _, [] => Except.ok []
  | i, conv :: rest => do
    let body ← convertConversationToApiInput ext model g conv
    let tail ← createBatchRequestsFrom ext model g (i + 1) rest
    Except.ok (batchRequestObj i body :: tail)

/-- `RemoteInferenceEngine._create_batch`, up to the upload/submit HTTP
calls: the list of request objects written to the batch input document,
one per conversation, indexed from zero. -/
def createBatchRequests (ext : Ext) (model : String) (g : GenerationParams)
    (conversations : List Conversation) : Except String (List Json) :=
  createBatchRequestsFrom ext model g 0 conversations

/-- `BatchStatus`: lifecycle states of a batch job. -/
inductive BatchStatus where
  | validating
  | in_progress
  | completed
  | failed
  | expired
  | cancelled
  deriving DecidableEq, Repr

/-- How a `BatchStatus` member renders inside a Python f-string
(`f"... Status: {status.status}"`). -/
def BatchStatus.pyStr : BatchStatus → String
  | BatchStatus.validating => "BatchStatus.VALIDATING"
  | BatchStatus.in_progress => "BatchStatus.IN_PROGRESS"
  | BatchStatus.completed => "BatchStatus.COMPLETED"
  | BatchStatus.failed => "BatchStatus.FAILED"
  | BatchStatus.expired => "BatchStatus.EXPIRED"
  | BatchStatus.cancelled => "BatchStatus.CANCELLED"

/-- The `BatchStatusResponse` dataclass. -/
structure BatchStatusResponse where
  batch_id : String
  status : BatchStatus
  total_requests : Int
  completed_requests : Int
  failed_requests : Int
  error : Option String
  output_file_id : Option String
  error_file_id : Option String
  deriving DecidableEq, Repr

/-- The remote service as observed by `_get_batch_results_with_mapping`:
the parsed status `_get_batch_status` returns for a batch id, and the
text content `_download_file` returns for a file id (their HTTP
plumbing raises on non-200 and is out of scope here). -/
structure RemoteService where
  getBatchStatus : String → BatchStatusResponse
  downloadFile : String → String

/-- Python `str.splitlines` restricted to "\n" line breaks (the only
separator the jsonlines documents use): every newline terminates a line,
and a final fragment is kept only when non-empty, so a trailing newline
adds no empty final line and the empty string has no lines. -/
def splitlinesChars : List Char → List Char → List String
  | [], acc => if acc.isEmpty then [] else [String.mk acc.reverse]
  | c :: cs, acc =>
    if c = '\n' then String.mk acc.reverse :: splitlinesChars cs []
    else splitlinesChars cs (c :: acc)

/-- `results_content.splitlines()`. -/
def splitlines (s : String) : List String := splitlinesChars s.data []

/-- The per-line body of the result loop in
`_get_batch_results_with_mapping`: parse the line as JSON, raise when it
carries a truthy `error` field, and otherwise decode
`result["response"]["body"]` against the corresponding original
conversation. -/
def processResultLine (ext : Ext) (line : String) (conv : Conversation) :
    Except String Conversation :=
  match ext.jsonLoads line with
  | none => Except.error "json.JSONDecodeError"
  | some result =>
    if jsonTruthy ((jsonGet result "error").getD Json.null) then
      Except.error "Batch request failed"
    else
      match jsonGet result "response" with
      | none => Except.error "KeyError: response"
      | some response =>
        match jsonGet response "body" with
        | none => Except.error "KeyError: body"
        | some body => convertApiOutputToConversation body conv

/-- `RemoteInferenceEngine._get_batch_results_with_mapping`: fetch the
batch status; raise unless it is completed; when failed requests are
reported and an error-file id is present (non-empty), download the error
file and raise with its content; require a (truthy) output-file id;
otherwise download the output document, split it into lines, zip the
lines positionally against the original conversations, and decode each
pair. -/
def getBatchResultsWithMapping (ext : Ext) (remote : RemoteService)
    (batch_id : String) (conversations : List Conversation) :
    Except String (List Conversation) :=
  let status := remote.getBatchStatus batch_id
  if status.status ≠ BatchStatus.completed then
    Except.error ("Batch is not completed. Status: " ++ status.status.pyStr)
  else if status.failed_requests > 0 ∧ optStrTruthy status.error_file_id then
    Except.error ("Batch has failed requests: " ++
                  remote.downloadFile (status.error_file_id.getD ""))
  else if ¬ optStrTruthy status.output_file_id then
    Except.error "No output file available"
  else
    exceptMapM (fun p => processResultLine ext p.1 p.2)
      ((splitlines (remote.downloadFile (status.output_file_id.getD ""))).zip
        conversations)

/-! ## Helper lemmas -/

/-- `exceptMapM` succeeds pointwise: when `f` maps the elements of `l` to
the elements of `r` one for one, the whole traversal returns `r`. -/
theorem exceptMapM_of_forall₂ (f : α → Except String β) (l : List α) (r : List β)
    (h : List.Forall₂ (fun a b => f a = Except.ok b) l r) :
    exceptMapM f l = Except.ok r := by
  induction h with
  | nil => rfl
  | cons hab _ ih =>
    simp only [exceptMapM, hab, ih]
    rfl

/-- Dropping a prefix never lengthens a list. -/
theorem length_dropWhile_le' (p : α → Bool) (l : List α) :
    (l.dropWhile p).length ≤ l.length := by
  induction l with
  | nil => simp [List.dropWhile]
  | cons a as ih =>
    by_cases h : p a
    · simp only [List.dropWhile, h]
      exact Nat.le_succ_of_le ih
    · simp [List.dropWhile, h]

/-- The grouping loop ignores the exact fuel value as long as the fuel
covers the list length. -/
theorem messageJsonDictsLoop_fuel_irrel (ext : Ext) (group : Bool) :
    ∀ fuel₁ fuel₂ (msgs : List Message), msgs.length ≤ fuel₁ →
      msgs.length ≤ fuel₂ →
      messageJsonDictsLoop ext group fuel₁ msgs =
        messageJsonDictsLoop ext group fuel₂ msgs := by
  intro fuel₁
  induction fuel₁ with
  | zero =>
    intro fuel₂ msgs h1 _
    cases msgs with
    | nil => cases fuel₂ <;> rfl
    | cons m rest => simp at h1
  | succ n ih =>
    intro fuel₂ msgs h1 h2
    cases msgs with
    | nil => cases fuel₂ <;> rfl
    | cons m rest =>
      cases fuel₂ with
      | zero => simp at h2
      | succ k =>
        simp only [messageJsonDictsLoop]
        have hrec : messageJsonDictsLoop ext group n
              (if group then rest.dropWhile (fun x => x.role = m.role) else rest) =
            messageJsonDictsLoop ext group k
              (if group then rest.dropWhile (fun x => x.role = m.role) else rest) := by
          apply ih
          · by_cases hg : group
            · simp only [hg, if_true]
              exact le_trans (length_dropWhile_le' _ _) (Nat.lt_succ_iff.mp h1)
            · simp only [hg, if_false]
              exact Nat.lt_succ_iff.mp h1
          · by_cases hg : group
            · simp only [hg, if_true]
              exact le_trans (length_dropWhile_le' _ _) (Nat.lt_succ_iff.mp h2)
            · simp only [hg, if_false]
              exact Nat.lt_succ_iff.mp h2
        rw [hrec]

/-- Unfolding of the grouped encoder at a nonempty list: encode the first
maximal run as one item, then recurse on the remaining messages. -/
theorem getListOfMessageJsonDicts_cons (ext : Ext) (m : Message)
    (rest : List Message) :
    getListOfMessageJsonDicts ext true (m :: rest) = (do
      let item ← groupItem ext (m :: rest.takeWhile (fun x => x.role = m.role)) m
      let tail ← getListOfMessageJsonDicts ext true
        (rest.dropWhile (fun x => x.role = m.role))
      Except.ok (item :: tail)) := by
  show messageJsonDictsLoop ext true (rest.length + 1) (m :: rest) = _
  simp only [messageJsonDictsLoop, if_true]
  rw [messageJsonDictsLoop_fuel_irrel ext true rest.length
        (rest.dropWhile (fun x => x.role = m.role)).length
        (rest.dropWhile (fun x => x.role = m.role))
        (length_dropWhile_le' _ _) (le_refl _)]
  rfl

/-! ## Claim theorems -/

/-- Exhaustion of the retry loop in general: when every attempt gets a
non-200 status, the loop burns all its fuel, one attempt and one
politeness sleep per iteration, and ends with the retries-exhausted
error. -/
theorem queryApiLoop_all_fail (transport : Nat → Nat × Json)
    (conv : Conversation) (mr : Nat)
    (h : ∀ i, (transport i).1 ≠ 200) :
    ∀ fuel attempts sleeps,
      queryApiLoop transport conv mr fuel attempts sleeps =
        { attempts := attempts + fuel, sleeps := sleeps + fuel,
          result := Except.error
            ("Failed to query API after " ++ toString mr ++ " retries.") } := by
  intro fuel
  induction fuel with
  | zero => intro attempts sleeps; rfl
  | succ n ih =>
    intro attempts sleeps
    simp only [queryApiLoop, if_neg (h attempts), ih]
    congr 1 <;> omega

/-- C3: for every conversation whose every request attempt receives a
non-success HTTP status, `_query_api` makes exactly `max_retries + 1`
attempts, sleeping the politeness interval after each failed attempt
(`max_retries + 1` sleeps), and then raises the retries-exhausted
error. -/
theorem queryApi_exhausts_retries (transport : Nat → Nat × Json)
    (conv : Conversation) (max_retries : Nat)
    (h : ∀ i, (transport i).1 ≠ 200) :
    queryApi transport conv max_retries =
      { attempts := max_retries + 1, sleeps := max_retries + 1,
        result := Except.error
          ("Failed to query API after " ++ toString max_retries ++ " retries.") } := by
  show queryApiLoop transport conv max_retries (max_retries + 1) 0 0 = _
  rw [queryApiLoop_all_fail transport conv max_retries h (max_retries + 1) 0 0]
  congr 1 <;> omega

/-- C3 witness: with `max_retries = 1` and a stub transport always
returning 500, the loop raises after exactly 2 attempts (and 2 sleeps). -/
theorem queryApi_exhausts_retries_witness :
    queryApi (fun _ => (500, Json.null)) ⟨[], [], none⟩ 1 =
      { attempts := 2, sleeps := 2,
        result := Except.error "Failed to query API after 1 retries." } :=
  queryApi_exhausts_retries (fun _ => (500, Json.null)) ⟨[], [], none⟩ 1
    (by intro i; show (500 : Nat) ≠ 200; decide)

/-- A trivial instantiation of the external collaborators, used to
evaluate the embedded code on concrete inputs: JSON parsing accepts only
the document "2", image loading is the identity, and base64 encoding is a
fixed data URI. -/
def extStub : Ext :=
  { jsonLoads := fun s => if s = "2" then some (Json.num 2) else none,
    loadImageBytesToMessage := fun m => m,
    base64encodeImageBytes := fun _ => "data:image/png;base64,QUJD" }

/-- An empty conversation, used as a concrete input. -/
def conv0 : Conversation := { messages := [], metadata := [], conversation_id := none }

/-- Generation settings with all knobs at their null defaults. -/
def gBase : GenerationParams :=
  { max_new_tokens := Json.null, temperature := Json.null, top_p := Json.null,
    frequency_penalty := Json.null, presence_penalty := Json.null,
    seed := Json.null, logit_bias := Json.null,
    stop_strings := none, guided_decoding := none }

/-- C6 (code bug): for an image-by-url message the claimed content unit is
`{type: image_url, image_url: {url: <the url>}}`, but the code (line 164,
`_IMAGE_URL_KEY: {message.content or ""}`) builds a Python set literal
holding the url, not a dict with a `url` key — so the produced value
under `image_url` is a set, which is not the claimed shape for any url
value (and is not even JSON-serializable, unlike the parallel base64
branch two lines above, which correctly builds `{_URL_KEY: b64_image}`). -/
theorem getContentForMessage_image_url_set_bug :
    getContentForMessage extStub
        { role := Role.user, type := ContentType.imageUrl,
          content := some "http://example.com/cat.png", binary := none } =
      Except.ok (Json.obj [("type", Json.str "image_url"),
                           ("image_url",
                            Json.pyset [Json.str "http://example.com/cat.png"])]) ∧
    ∀ u : Json,
      Json.pyset [Json.str "http://example.com/cat.png"] ≠ Json.obj [("url", u)] := by
  constructor
  · rfl
  · intro u
    simp

/-- C7: structured-output resolution on request encoding.  A pydantic
schema class contributes its declared name and exported schema to the
appended `response_format` field; a raw dict contributes the generic name
"Response" and itself; a string contributes the generic name and its
JSON parse; any other schema type makes encoding raise; and a
guided-decoding setting carrying no schema makes encoding raise. -/
theorem apiInput_structured_output_resolution (ext : Ext) (model : String)
    (g : GenerationParams) (conv : Conversation) :
    (∀ name schema out,
      g.guided_decoding = some { json := some (JsonSchemaInput.pydantic name schema) } →
      convertConversationToApiInput ext model g conv = Except.ok out →
      ∃ rest, out = Json.obj (rest ++ [("response_format", responseFormatJson name schema)])) ∧
    (∀ entries out,
      g.guided_decoding = some { json := some (JsonSchemaInput.dict entries) } →
      convertConversationToApiInput ext model g conv = Except.ok out →
      ∃ rest, out = Json.obj (rest ++
        [("response_format", responseFormatJson "Response" (Json.obj entries))])) ∧
    (∀ s v out,
      g.guided_decoding = some { json := some (JsonSchemaInput.str s) } →
      ext.jsonLoads s = some v →
      convertConversationToApiInput ext model g conv = Except.ok out →
      ∃ rest, out = Json.obj (rest ++
        [("response_format", responseFormatJson "Response" v)])) ∧
    (g.guided_decoding = some { json := some JsonSchemaInput.other } →
      ∃ e, convertConversationToApiInput ext model g conv = Except.error e) ∧
    (g.guided_decoding = some { json := none } →
      ∃ e, convertConversationToApiInput ext model g conv = Except.error e) := by
  cases hm : encodeTurnsUngrouped ext conv.messages with
  | error e =>
    refine ⟨?_, ?_, ?_, ?_, ?_⟩ <;>
      simp_all [convertConversationToApiInput]
  | ok msgs =>
    refine ⟨?_, ?_, ?_, ?_, ?_⟩
    · intro name schema out hgd hok
      simp only [convertConversationToApiInput, hgd, hm, resolveJsonSchema] at hok
      exact ⟨_, (Except.ok.inj hok).symm⟩
    · intro entries out hgd hok
      simp only [convertConversationToApiInput, hgd, hm, resolveJsonSchema] at hok
      exact ⟨_, (Except.ok.inj hok).symm⟩
    · intro s v out hgd hload hok
      simp only [convertConversationToApiInput, hgd, hm, resolveJsonSchema,
        hload] at hok
      exact ⟨_, (Except.ok.inj hok).symm⟩
    · intro hgd
      simp only [convertConversationToApiInput, hgd, hm, resolveJsonSchema]
      exact ⟨_, rfl⟩
    · intro hgd
      simp only [convertConversationToApiInput, hgd, hm]
      exact ⟨_, rfl⟩

/-- Generation settings carrying a guided-decoding member with the given
schema slot. -/
def gGuided (js : Option JsonSchemaInput) : GenerationParams :=
  { gBase with guided_decoding := some ({ json := js }) }

/-- C7 witness: the five structured-output cases evaluated at concrete
inputs — a schema class named "MySchema", a raw mapping, the JSON string
"2" (parsing to the number 2), an unsupported schema value, and a
guided-decoding setting with no schema. -/
theorem apiInput_structured_output_resolution_witness :
    (∃ out rest,
      convertConversationToApiInput extStub "m"
          (gGuided (some (JsonSchemaInput.pydantic "MySchema" (Json.obj []))))
          conv0 = Except.ok out ∧
      out = Json.obj (rest ++
        [("response_format", responseFormatJson "MySchema" (Json.obj []))])) ∧
    (∃ out rest,
      convertConversationToApiInput extStub "m"
          (gGuided (some (JsonSchemaInput.dict [("type", Json.str "object")])))
          conv0 = Except.ok out ∧
      out = Json.obj (rest ++
        [("response_format",
          responseFormatJson "Response" (Json.obj [("type", Json.str "object")]))])) ∧
    (∃ out rest,
      convertConversationToApiInput extStub "m"
          (gGuided (some (JsonSchemaInput.str "2")))
          conv0 = Except.ok out ∧
      out = Json.obj (rest ++
        [("response_format", responseFormatJson "Response" (Json.num 2))])) ∧
    (∃ e, convertConversationToApiInput extStub "m"
        (gGuided (some JsonSchemaInput.other)) conv0 = Except.error e) ∧
    (∃ e, convertConversationToApiInput extStub "m"
        (gGuided none) conv0 = Except.error e) := by
  refine ⟨?_, ?_, ?_, ?_, ?_⟩
  · obtain ⟨rest, hr⟩ :=
      (apiInput_structured_output_resolution extStub "m"
          (gGuided (some (JsonSchemaInput.pydantic "MySchema" (Json.obj [])))) conv0).1
        "MySchema" (Json.obj []) _ rfl rfl
    exact ⟨_, rest, rfl, hr⟩
  · obtain ⟨rest, hr⟩ :=
      (apiInput_structured_output_resolution extStub "m"
          (gGuided (some (JsonSchemaInput.dict [("type", Json.str "object")]))) conv0).2.1
        [("type", Json.str "object")] _ rfl rfl
    exact ⟨_, rest, rfl, hr⟩
  · obtain ⟨rest, hr⟩ :=
      (apiInput_structured_output_resolution extStub "m"
          (gGuided (some (JsonSchemaInput.str "2"))) conv0).2.2.1
        "2" (Json.num 2) _ rfl rfl rfl
    exact ⟨_, rest, rfl, hr⟩
  · exact (apiInput_structured_output_resolution extStub "m"
      (gGuided (some JsonSchemaInput.other)) conv0).2.2.2.1 rfl
  · exact (apiInput_structured_output_resolution extStub "m"
      (gGuided none) conv0).2.2.2.2 rfl

/-- Looking a role's wire string back up yields the role. -/
theorem roleOfString_value (r : Role) : roleOfString r.value = some r := by
  cases r <;> rfl

/-- C8: decoding a response whose first completion message carries role
`r` and content `c` against a conversation appends exactly one text
message with that role and content, preserving the original messages,
metadata and conversation identifier; and a response missing the first
completion (no `choices` key, or an empty `choices` list) is a decode
error. -/
theorem apiOutput_decode_roundtrip (orig : Conversation) (response : Json) :
    (∀ choice0 rest msgJson (r : Role) (c : String),
      jsonGet response "choices" = some (Json.arr (choice0 :: rest)) →
      jsonGet choice0 "message" = some msgJson →
      jsonGet msgJson "role" = some (Json.str r.value) →
      jsonGet msgJson "content" = some (Json.str c) →
      convertApiOutputToConversation response orig =
        Except.ok
          { messages := orig.messages ++
              [{ role := r, type := ContentType.text,
                 content := some c, binary := none }],
            metadata := orig.metadata,
            conversation_id := orig.conversation_id }) ∧
    ((jsonGet response "choices" = none ∨
        jsonGet response "choices" = some (Json.arr [])) →
      ∃ e, convertApiOutputToConversation response orig = Except.error e) := by
  constructor
  · intro choice0 rest msgJson r c hchoices hmsg hrole hcontent
    simp only [convertApiOutputToConversation, hchoices, hmsg, hrole, hcontent,
      contentAsOptStr, roleOfString_value]
  · intro h
    cases h with
    | inl h => simp only [convertApiOutputToConversation, h]; exact ⟨_, rfl⟩
    | inr h => simp only [convertApiOutputToConversation, h]; exact ⟨_, rfl⟩

/-- C8 witness: a synthetic response whose first completion message is an
assistant turn with content "hello" decodes against a one-message
conversation into that conversation plus the appended assistant text
message, and a response with no `choices` key is a decode error. -/
theorem apiOutput_decode_roundtrip_witness :
    convertApiOutputToConversation
        (Json.obj [("choices",
          Json.arr [Json.obj [("message",
            Json.obj [("role", Json.str "assistant"),
                      ("content", Json.str "hello")])]])])
        { messages := [{ role := Role.user, type := ContentType.text,
                         content := some "hi", binary := none }],
          metadata := [("k", "v")], conversation_id := some "cid" } =
      Except.ok
        { messages := [{ role := Role.user, type := ContentType.text,
                         content := some "hi", binary := none },
                       { role := Role.assistant, type := ContentType.text,
                         content := some "hello", binary := none }],
          metadata := [("k", "v")], conversation_id := some "cid" } ∧
    (∃ e, convertApiOutputToConversation (Json.obj []) conv0 = Except.error e) := by
  constructor
  · exact (apiOutput_decode_roundtrip _ _).1 _ [] _ Role.assistant "hello"
      rfl rfl rfl rfl
  · exact (apiOutput_decode_roundtrip conv0 (Json.obj [])).2 (Or.inl rfl)

/-- A plain text message with the given role and content. -/
def textMsg (r : Role) (s : String) : Message :=
  { role := r, type := ContentType.text, content := some s, binary := none }

/-- C5: grouped encoding merges maximal runs of adjacent same-role
messages into one wire turn in a single left-to-right scan — three
messages with roles user, user, assistant produce exactly 2 turns; a run
of exactly one plain-text message emits its content as the bare string;
and every other maximal run emits its content as the list of its members'
content units. -/
theorem grouped_encoding_merges_runs (ext : Ext) :
    (∀ m1 m2 m3 : Message, m1.role = Role.user → m2.role = Role.user →
      m3.role = Role.assistant →
      ∀ r, getListOfMessageJsonDicts ext true [m1, m2, m3] = Except.ok r →
        r.length = 2) ∧
    (∀ (m : Message) (rest : List Message) (s : String),
      m.type = ContentType.text → m.content = some s →
      (∀ x, rest.head? = some x → x.role ≠ m.role) →
      getListOfMessageJsonDicts ext true (m :: rest) =
        (getListOfMessageJsonDicts ext true rest).map
          (fun tail =>
            Json.obj [("role", Json.str m.role.value),
                      ("content", Json.str s)] :: tail)) ∧
    (∀ (m : Message) (rest : List Message),
      ¬ ((m :: rest.takeWhile (fun x => x.role = m.role)).length = 1 ∧ m.isText) →
      getListOfMessageJsonDicts ext true (m :: rest) = (do
        let units ← exceptMapM (getContentForMessage ext)
          (m :: rest.takeWhile (fun x => x.role = m.role))
        let tail ← getListOfMessageJsonDicts ext true
          (rest.dropWhile (fun x => x.role = m.role))
        Except.ok (Json.obj [("role", Json.str m.role.value),
                             ("content", Json.arr units)] :: tail))) := by
  refine ⟨?_, ?_, ?_⟩
  · intro m1 m2 m3 h1 h2 h3 r hok
    rw [getListOfMessageJsonDicts_cons] at hok
    have htake : [m2, m3].takeWhile (fun x => x.role = m1.role) = [m2] := by
      simp [List.takeWhile, h1, h2, h3]
    have hdrop : [m2, m3].dropWhile (fun x => x.role = m1.role) = [m3] := by
      simp [List.dropWhile, h1, h2, h3]
    rw [htake, hdrop, getListOfMessageJsonDicts_cons] at hok
    simp only [List.takeWhile_nil, List.dropWhile_nil] at hok
    cases hi : groupItem ext [m1, m2] m1 with
    | error e => rw [hi] at hok; exact absurd hok (by simp [Bind.bind, Except.bind])
    | ok item =>
      rw [hi] at hok
      cases hi3 : groupItem ext [m3] m3 with
      | error e => rw [hi3] at hok; exact absurd hok (by simp [Bind.bind, Except.bind])
      | ok item3 =>
        rw [hi3,
          show getListOfMessageJsonDicts ext true ([] : List Message) =
            Except.ok [] from rfl] at hok
        simp only [Bind.bind, Except.bind] at hok
        obtain rfl : r = [item, item3] := (Except.ok.inj hok).symm
        rfl
  · intro m rest s htext hcontent hbreak
    have htake : rest.takeWhile (fun x => x.role = m.role) = [] := by
      cases rest with
      | nil => rfl
      | cons x xs =>
        have := hbreak x rfl
        simp [List.takeWhile, this]
    have hdrop : rest.dropWhile (fun x => x.role = m.role) = rest := by
      cases rest with
      | nil => rfl
      | cons x xs =>
        have := hbreak x rfl
        simp [List.dropWhile, this]
    rw [getListOfMessageJsonDicts_cons, htake, hdrop]
    have hitem : groupItem ext [m] m =
        Except.ok (Json.obj [("role", Json.str m.role.value),
                             ("content", Json.str s)]) := by
      have : m.isText = true := by simp [Message.isText, htext]
      simp [groupItem, this, hcontent, optStrToJson]
    rw [hitem]
    cases getListOfMessageJsonDicts ext true rest with
    | error e => rfl
    | ok tail => rfl
  · intro m rest hcond
    rw [getListOfMessageJsonDicts_cons]
    have hitem : groupItem ext (m :: rest.takeWhile (fun x => x.role = m.role)) m =
        (exceptMapM (getContentForMessage ext)
          (m :: rest.takeWhile (fun x => x.role = m.role))).map
          (fun units => Json.obj [("role", Json.str m.role.value),
                                  ("content", Json.arr units)]) := by
      simp only [groupItem, if_neg hcond]
    rw [hitem]
    cases exceptMapM (getContentForMessage ext)
        (m :: rest.takeWhile (fun x => x.role = m.role)) with
    | error e => rfl
    | ok units => rfl

/-- C5 witness: the three grouping behaviors at concrete inputs — roles
[user, user, assistant] yield 2 turns; a single-message plain-text run
yields a bare-string content; an adjacent same-role pair yields one turn
whose content is the two-element unit list. -/
theorem grouped_encoding_merges_runs_witness :
    (∃ r, getListOfMessageJsonDicts extStub true
        [textMsg Role.user "a", textMsg Role.user "b", textMsg Role.assistant "c"] =
          Except.ok r ∧ r.length = 2) ∧
    (getListOfMessageJsonDicts extStub true
        [textMsg Role.user "a", textMsg Role.assistant "c"] =
      (getListOfMessageJsonDicts extStub true [textMsg Role.assistant "c"]).map
        (fun tail => Json.obj [("role", Json.str "user"),
                               ("content", Json.str "a")] :: tail)) ∧
    (getListOfMessageJsonDicts extStub true
        [textMsg Role.user "a", textMsg Role.user "b"] = (do
      let units ← exceptMapM (getContentForMessage extStub)
        [textMsg Role.user "a", textMsg Role.user "b"]
      let tail ← getListOfMessageJsonDicts extStub true ([] : List Message)
      Except.ok (Json.obj [("role", Json.str "user"),
                           ("content", Json.arr units)] :: tail))) := by
  refine ⟨?_, ?_, ?_⟩
  · exact ⟨_, rfl, (grouped_encoding_merges_runs extStub).1
      (textMsg Role.user "a") (textMsg Role.user "b") (textMsg Role.assistant "c")
      rfl rfl rfl _ rfl⟩
  · exact (grouped_encoding_merges_runs extStub).2.1
      (textMsg Role.user "a") [textMsg Role.assistant "c"] "a" rfl rfl
      (by intro x hx; obtain rfl : x = textMsg Role.assistant "c" := (Option.some.inj hx).symm; decide)
  · exact (grouped_encoding_merges_runs extStub).2.2
      (textMsg Role.user "a") [textMsg Role.user "b"] (by decide)

/-- The content unit of a plain text message. -/
def unitText (s : String) : Json :=
  Json.obj [("type", Json.str "text"), ("text", Json.str s)]

/-- The wire turn the per-request (ungrouped) encoder emits for one text
message: a single-element content list. -/
def ungroupedTurn (role s : String) : Json :=
  Json.obj [("content", Json.arr [unitText s]), ("role", Json.str role)]

/-- A conversation of two adjacent user text messages. -/
def convUserUser : Conversation :=
  { messages := [textMsg Role.user "a", textMsg Role.user "b"],
    metadata := [], conversation_id := none }

/-- C2 counterexample: `_create_batch` does NOT encode conversations in
grouped mode.  For a conversation with two adjacent user messages, the
request body built by the batch-creation loop carries two wire turns
(one per message, via `_convert_conversation_to_api_input`), while the
grouped encoder (`_get_list_of_message_json_dicts` with
`group_adjacent_same_role_turns=True`) would merge them into one turn —
so the body's `messages` field differs from the grouped encoding. -/
theorem createBatch_not_grouped_counterexample :
    ((createBatchRequests extStub "m" gBase [convUserUser]).toOption.bind
        (fun reqs => reqs.head?.bind (fun req =>
          (jsonGet req "body").bind (fun body => jsonGet body "messages")))) =
      some (Json.arr [ungroupedTurn "user" "a", ungroupedTurn "user" "b"]) ∧
    getListOfMessageJsonDicts extStub true convUserUser.messages =
      Except.ok [Json.obj [("role", Json.str "user"),
                           ("content", Json.arr [unitText "a", unitText "b"])]] ∧
    Json.arr [ungroupedTurn "user" "a", ungroupedTurn "user" "b"] ≠
      Json.arr [Json.obj [("role", Json.str "user"),
                          ("content", Json.arr [unitText "a", unitText "b"])]] := by
  refine ⟨rfl, rfl, ?_⟩
  simp [ungroupedTurn]

/-- The request-building loop with a starting index: every produced
request carries the encoded (ungrouped) body of the conversation at its
position and the synthetic identifier for the shifted index. -/
theorem createBatchRequestsFrom_ok (ext : Ext) (model : String)
    (g : GenerationParams) :
    ∀ (i : Nat) (convs : List Conversation) (reqs : List Json),
      createBatchRequestsFrom ext model g i convs = Except.ok reqs →
      reqs.length = convs.length ∧
      ∀ (k : Nat) (c : Conversation), convs.get? k = some c →
        ∃ body, convertConversationToApiInput ext model g c = Except.ok body ∧
          reqs.get? k = some (batchRequestObj (i + k) body) := by
  intro i convs
  induction convs generalizing i with
  | nil =>
    intro reqs h
    obtain rfl : reqs = [] := (Except.ok.inj h).symm
    exact ⟨rfl, fun k c hk => by simp [List.get?] at hk⟩
  | cons c cs ih =>
    intro reqs h
    cases hc : convertConversationToApiInput ext model g c with
    | error e =>
      rw [show createBatchRequestsFrom ext model g i (c :: cs) =
            (do
              let body ← convertConversationToApiInput ext model g c
              let tail ← createBatchRequestsFrom ext model g (i + 1) cs
              Except.ok (batchRequestObj i body :: tail)) from rfl,
        hc] at h
      exact absurd h (by simp [Bind.bind, Except.bind])
    | ok body =>
      cases ht : createBatchRequestsFrom ext model g (i + 1) cs with
      | error e =>
        rw [show createBatchRequestsFrom ext model g i (c :: cs) =
              (do
                let body ← convertConversationToApiInput ext model g c
                let tail ← createBatchRequestsFrom ext model g (i + 1) cs
                Except.ok (batchRequestObj i body :: tail)) from rfl,
          hc, ht] at h
        exact absurd h (by simp [Bind.bind, Except.bind])
      | ok tail =>
        rw [show createBatchRequestsFrom ext model g i (c :: cs) =
              (do
                let body ← convertConversationToApiInput ext model g c
                let tail ← createBatchRequestsFrom ext model g (i + 1) cs
                Except.ok (batchRequestObj i body :: tail)) from rfl,
          hc, ht] at h
        simp only [Bind.bind, Except.bind] at h
        obtain rfl : reqs = batchRequestObj i body :: tail :=
          (Except.ok.inj h).symm
        obtain ⟨hlen, hidx⟩ := ih (i + 1) tail ht
        refine ⟨by simp [hlen], ?_⟩
        intro k cx hk
        cases k with
        | zero =>
          obtain rfl : cx = c := (Option.some.inj hk).symm
          exact ⟨body, hc, by simp [List.get?]⟩
        | succ k =>
          simp only [List.get?] at hk
          obtain ⟨b, hb, hget⟩ := hidx k cx hk
          refine ⟨b, hb, ?_⟩
          simp only [List.get?, hget]
          congr 2
          omega

/-- C2 (amended): batch-job creation encodes each conversation with the
per-request encoder — each message its own wire turn with a one-element
content list, not grouped mode — into a request object whose custom
identifier is exactly `request-<index>` (index = position in the input
list) and whose url is the fixed completion endpoint path
`/v1/chat/completions`. -/
theorem createBatchRequests_positional_ids (ext : Ext) (model : String)
    (g : GenerationParams) (convs : List Conversation) (reqs : List Json)
    (h : createBatchRequests ext model g convs = Except.ok reqs) :
    reqs.length = convs.length ∧
    ∀ (k : Nat) (c : Conversation), convs.get? k = some c →
      ∃ body, convertConversationToApiInput ext model g c = Except.ok body ∧
        reqs.get? k = some (batchRequestObj k body) ∧
        (reqs.get? k).bind (fun r => jsonGet r "custom_id") =
          some (Json.str ("request-" ++ toString k)) ∧
        (reqs.get? k).bind (fun r => jsonGet r "url") =
          some (Json.str "/v1/chat/completions") := by
  obtain ⟨hlen, hidx⟩ := createBatchRequestsFrom_ok ext model g 0 convs reqs h
  refine ⟨hlen, ?_⟩
  intro k c hk
  obtain ⟨body, hb, hget⟩ := hidx k c hk
  rw [show (0 : Nat) + k = k from by omega] at hget
  exact ⟨body, hb, hget, by rw [hget]; rfl, by rw [hget]; rfl⟩

/-- C2 witness: one conversation of two user messages yields one request
whose identifier is `request-0`, whose url is the completion endpoint,
and whose body is the ungrouped encoding. -/
theorem createBatchRequests_positional_ids_witness :
    ∃ reqs, createBatchRequests extStub "m" gBase [convUserUser] = Except.ok reqs ∧
      reqs.length = 1 ∧
      ∃ body, convertConversationToApiInput extStub "m" gBase convUserUser =
          Except.ok body ∧
        reqs.get? 0 = some (batchRequestObj 0 body) ∧
        (reqs.get? 0).bind (fun r => jsonGet r "custom_id") =
          some (Json.str "request-0") ∧
        (reqs.get? 0).bind (fun r => jsonGet r "url") =
          some (Json.str "/v1/chat/completions") := by
  obtain ⟨hlen, hidx⟩ :=
    createBatchRequests_positional_ids extStub "m" gBase [convUserUser] _ rfl
  obtain ⟨body, hb, hget, hcid, hurl⟩ := hidx 0 convUserUser rfl
  exact ⟨_, rfl, hlen, body, hb, hget, hcid, hurl⟩

/-- The shape of a well-formed result line as the claim describes it: it
parses to a JSON object with no `error` field, and its response body
decodes against the paired original conversation. -/
def lineDecodes (ext : Ext) (line : String) (conv out : Conversation) : Prop :=
  ∃ r resp body, ext.jsonLoads line = some r ∧ jsonGet r "error" = none ∧
    jsonGet r "response" = some resp ∧ jsonGet resp "body" = some body ∧
    convertApiOutputToConversation body conv = Except.ok out

/-- A well-formed line is processed to its decoded conversation. -/
theorem processResultLine_of_lineDecodes (ext : Ext) (line : String)
    (conv out : Conversation) (h : lineDecodes ext line conv out) :
    processResultLine ext line conv = Except.ok out := by
  obtain ⟨r, resp, body, hload, herr, hresp, hbody, hdec⟩ := h
  simp only [processResultLine, hload, herr, hresp, hbody, Option.getD,
    jsonTruthy, if_false]
  exact hdec

/-- On a completed batch with no failed requests and a (truthy) output
file, result retrieval is exactly the positional zip-and-decode of the
downloaded document's lines against the original conversations. -/
theorem getBatchResults_clean_unfold (ext : Ext) (remote : RemoteService)
    (bid : String) (convs : List Conversation) (fid : String)
    (hst : (remote.getBatchStatus bid).status = BatchStatus.completed)
    (hfail : (remote.getBatchStatus bid).failed_requests = 0)
    (hout : (remote.getBatchStatus bid).output_file_id = some fid)
    (hfid : fid ≠ "") :
    getBatchResultsWithMapping ext remote bid convs =
      exceptMapM (fun p => processResultLine ext p.1 p.2)
        ((splitlines (remote.downloadFile fid)).zip convs) := by
  simp only [getBatchResultsWithMapping, hst, hfail, hout]
  rw [if_neg (by simp)]
  rw [if_neg (by simp)]
  rw [if_neg (by simp [optStrTruthy, hfid])]
  rfl

/-- C4: result retrieval raises for anything but a ready, fully
successful batch — a non-completed status raises (job not ready); a
completed status reporting failed requests together with a present
error-file id raises carrying the downloaded error-file content,
returning no partial results; and a completed status with no (truthy)
output-file id raises that no output file is available. -/
theorem getBatchResults_all_or_nothing (ext : Ext) (remote : RemoteService)
    (bid : String) (convs : List Conversation) :
    ((remote.getBatchStatus bid).status ≠ BatchStatus.completed →
      getBatchResultsWithMapping ext remote bid convs =
        Except.error ("Batch is not completed. Status: " ++
          (remote.getBatchStatus bid).status.pyStr)) ∧
    (∀ e, (remote.getBatchStatus bid).status = BatchStatus.completed →
      (remote.getBatchStatus bid).failed_requests > 0 →
      (remote.getBatchStatus bid).error_file_id = some e → e ≠ "" →
      getBatchResultsWithMapping ext remote bid convs =
        Except.error ("Batch has failed requests: " ++ remote.downloadFile e)) ∧
    ((remote.getBatchStatus bid).status = BatchStatus.completed →
      ¬ ((remote.getBatchStatus bid).failed_requests > 0 ∧
          optStrTruthy (remote.getBatchStatus bid).error_file_id) →
      (remote.getBatchStatus bid).output_file_id = none →
      getBatchResultsWithMapping ext remote bid convs =
        Except.error "No output file available") := by
  refine ⟨?_, ?_, ?_⟩
  · intro hne
    simp only [getBatchResultsWithMapping]
    rw [if_pos hne]
  · intro e hst hfail herr he
    simp [getBatchResultsWithMapping, hst, hfail, herr, optStrTruthy, he]
  · intro hst hnofail hnone
    simp only [getBatchResultsWithMapping, hst, hnone]
    rw [if_neg (by simp)]
    rw [if_neg (by simpa [hst, hnone] using hnofail)]
    rw [if_pos (by simp [optStrTruthy])]

/-- A batch status record with the given lifecycle state, failed-request
count, and error/output file ids (the other fields are fixed). -/
def statusMk (st : BatchStatus) (failed : Int) (efid ofid : Option String) :
    BatchStatusResponse :=
  { batch_id := "b", status := st, total_requests := 1,
    completed_requests := 1, failed_requests := failed, error := none,
    output_file_id := ofid, error_file_id := efid }

/-- C4 witness: the three raising branches at concrete remotes — an
in-progress batch, a completed batch with one failed request and error
file "ef" whose content is "boom", and a completed batch with no output
file. -/
theorem getBatchResults_all_or_nothing_witness :
    getBatchResultsWithMapping extStub
        { getBatchStatus := fun _ => statusMk BatchStatus.in_progress 0 none none,
          downloadFile := fun _ => "" } "b" [conv0] =
      Except.error "Batch is not completed. Status: BatchStatus.IN_PROGRESS" ∧
    getBatchResultsWithMapping extStub
        { getBatchStatus := fun _ => statusMk BatchStatus.completed 1 (some "ef") (some "of"),
          downloadFile := fun fid => if fid = "ef" then "boom" else "" } "b" [conv0] =
      Except.error ("Batch has failed requests: " ++
        (if "ef" = "ef" then "boom" else "")) ∧
    getBatchResultsWithMapping extStub
        { getBatchStatus := fun _ => statusMk BatchStatus.completed 0 none none,
          downloadFile := fun _ => "" } "b" [conv0] =
      Except.error "No output file available" := by
  refine ⟨?_, ?_, ?_⟩
  · exact (getBatchResults_all_or_nothing extStub _ "b" [conv0]).1 (by decide)
  · exact (getBatchResults_all_or_nothing extStub _ "b" [conv0]).2.1
      "ef" rfl (by decide) rfl (by decide)
  · exact (getBatchResults_all_or_nothing extStub _ "b" [conv0]).2.2
      rfl (by decide) rfl

/-- C1: positional remapping of a clean batch result document.  With a
completed status, no failed requests and an output file whose document
has as many lines as there are original conversations, each line being a
JSON object without an error field whose response body decodes against
the like-positioned original conversation, result retrieval returns
exactly one conversation per original, in order, the i-th being the i-th
line's decoded response. -/
theorem getBatchResults_positional_remap (ext : Ext) (remote : RemoteService)
    (bid : String) (convs : List Conversation) (fid : String)
    (results : List Conversation)
    (hst : (remote.getBatchStatus bid).status = BatchStatus.completed)
    (hfail : (remote.getBatchStatus bid).failed_requests = 0)
    (hout : (remote.getBatchStatus bid).output_file_id = some fid)
    (hfid : fid ≠ "")
    (hlen : (splitlines (remote.downloadFile fid)).length = convs.length)
    (hproc : List.Forall₂ (fun p out => lineDecodes ext p.1 p.2 out)
      ((splitlines (remote.downloadFile fid)).zip convs) results) :
    getBatchResultsWithMapping ext remote bid convs = Except.ok results ∧
    results.length = convs.length := by
  have hmap : exceptMapM (fun p => processResultLine ext p.1 p.2)
      ((splitlines (remote.downloadFile fid)).zip convs) = Except.ok results := by
    apply exceptMapM_of_forall₂
    exact List.Forall₂.imp
      (fun p out h => processResultLine_of_lineDecodes ext p.1 p.2 out h) hproc
  refine ⟨?_, ?_⟩
  · rw [getBatchResults_clean_unfold ext remote bid convs fid hst hfail hout hfid]
    exact hmap
  · have hz := hproc.length_eq
    rw [List.length_zip, hlen, Nat.min_self] at hz
    exact hz.symm

/-- The body of a synthetic successful completion response: one choice
whose message is an assistant turn with content "hello". -/
def okBody : Json :=
  Json.obj [("choices", Json.arr [Json.obj [("message",
    Json.obj [("role", Json.str "assistant"),
              ("content", Json.str "hello")])]])]

/-- A result-document line value wrapping `okBody`. -/
def okLineJson : Json := Json.obj [("response", Json.obj [("body", okBody)])]

/-- External collaborators whose JSON parser accepts exactly the line
"ln", yielding `okLineJson`. -/
def extBatch : Ext :=
  { jsonLoads := fun s => if s = "ln" then some okLineJson else none,
    loadImageBytesToMessage := fun m => m,
    base64encodeImageBytes := fun _ => "" }

/-- The conversation `okBody` decodes to against the empty original. -/
def convHello : Conversation :=
  { messages := [textMsg Role.assistant "hello"], metadata := [],
    conversation_id := none }

/-- A remote service with a clean completed one-request batch whose
output document is the given text. -/
def remoteDoc (doc : String) : RemoteService :=
  { getBatchStatus := fun _ => statusMk BatchStatus.completed 0 none (some "of"),
    downloadFile := fun _ => doc }

/-- C1 witness: a one-line output document against one original
conversation returns exactly that line's decoded conversation. -/
theorem getBatchResults_positional_remap_witness :
    getBatchResultsWithMapping extBatch (remoteDoc "ln") "b" [conv0] =
      Except.ok [convHello] ∧
    ([convHello] : List Conversation).length = ([conv0] : List Conversation).length :=
  getBatchResults_positional_remap extBatch (remoteDoc "ln") "b" [conv0] "of"
    [convHello] rfl rfl rfl (by decide) rfl
    (List.Forall₂.cons ⟨okLineJson, Json.obj [("body", okBody)], okBody,
      rfl, rfl, rfl, rfl, rfl⟩ List.Forall₂.nil)

/-- C9: when the output document's line count differs from the number of
original conversations, result retrieval raises no error about the
mismatch — the positional zip silently truncates to the shorter side, so
(provided every zipped pair decodes) exactly
`min (number of lines) (number of conversations)` results come back. -/
theorem getBatchResults_zip_truncates (ext : Ext) (remote : RemoteService)
    (bid : String) (convs : List Conversation) (fid : String)
    (results : List Conversation)
    (hst : (remote.getBatchStatus bid).status = BatchStatus.completed)
    (hfail : (remote.getBatchStatus bid).failed_requests = 0)
    (hout : (remote.getBatchStatus bid).output_file_id = some fid)
    (hfid : fid ≠ "")
    (hne : (splitlines (remote.downloadFile fid)).length ≠ convs.length)
    (hproc : List.Forall₂ (fun p out => processResultLine ext p.1 p.2 = Except.ok out)
      ((splitlines (remote.downloadFile fid)).zip convs) results) :
    getBatchResultsWithMapping ext remote bid convs = Except.ok results ∧
    results.length =
      min (splitlines (remote.downloadFile fid)).length convs.length := by
  refine ⟨?_, ?_⟩
  · rw [getBatchResults_clean_unfold ext remote bid convs fid hst hfail hout hfid]
    exact exceptMapM_of_forall₂ _ _ _ hproc
  · have hz := hproc.length_eq
    rw [List.length_zip] at hz
    exact hz.symm

/-- C9 witness: two lines against one conversation silently yield one
result (no error), and one line against two conversations silently
yields one result. -/
theorem getBatchResults_zip_truncates_witness :
    (getBatchResultsWithMapping extBatch (remoteDoc "ln\nln") "b" [conv0] =
        Except.ok [convHello] ∧
      ([convHello] : List Conversation).length = min 2 1) ∧
    (getBatchResultsWithMapping extBatch (remoteDoc "ln") "b" [conv0, convHello] =
        Except.ok [convHello] ∧
      ([convHello] : List Conversation).length = min 1 2) := by
  constructor
  · exact getBatchResults_zip_truncates extBatch (remoteDoc "ln\nln") "b" [conv0]
      "of" [convHello] rfl rfl rfl (by decide) (by decide)
      (List.Forall₂.cons rfl List.Forall₂.nil)
  · exact getBatchResults_zip_truncates extBatch (remoteDoc "ln") "b"
      [conv0, convHello] "of" [convHello] rfl rfl rfl (by decide) (by decide)
      (List.Forall₂.cons rfl List.Forall₂.nil)

/-- The same remote service with the reported failed-request count zeroed
out. -/
def remoteZeroFailed (remote : RemoteService) : RemoteService :=
  { getBatchStatus := fun b => { remote.getBatchStatus b with failed_requests := 0 },
    downloadFile := remote.downloadFile }

/-- C10: when a completed batch reports failed requests but carries no
error-file id, result retrieval does not raise for those failures — it
behaves exactly as it would against a remote reporting zero failed
requests, proceeding to the output file. -/
theorem getBatchResults_failed_without_error_file (ext : Ext)
    (remote : RemoteService) (bid : String) (convs : List Conversation)
    (hst : (remote.getBatchStatus bid).status = BatchStatus.completed)
    (hfailpos : (remote.getBatchStatus bid).failed_requests > 0)
    (hef : (remote.getBatchStatus bid).error_file_id = none) :
    getBatchResultsWithMapping ext remote bid convs =
      getBatchResultsWithMapping ext (remoteZeroFailed remote) bid convs := by
  simp [getBatchResultsWithMapping, remoteZeroFailed, hst, hef, optStrTruthy]

/-- C10 witness: a completed batch reporting one failed request with no
error file decodes its output document exactly as a fully successful
batch would (here: one decoded conversation, no raised failure). -/
theorem getBatchResults_failed_without_error_file_witness :
    getBatchResultsWithMapping extBatch
        { getBatchStatus := fun _ => statusMk BatchStatus.completed 1 none (some "of"),
          downloadFile := fun _ => "ln" } "b" [conv0] =
      getBatchResultsWithMapping extBatch
        (remoteZeroFailed
          { getBatchStatus := fun _ => statusMk BatchStatus.completed 1 none (some "of"),
            downloadFile := fun _ => "ln" }) "b" [conv0] :=
  getBatchResults_failed_without_error_file extBatch _ "b" [conv0]
    rfl (by decide) rfl

end Oumi
